import Mathlib

/-!
Shallow embedding of `src/lib.rs` of the `multipart_rs_multer` crate: a
multipart/form-data parser exposed over an FFI boundary.  Pure data flow is
modelled as Lean functions; Rust panics are modelled as the `error`
constructor of `Except`; nullable raw pointers are modelled as `Option`;
byte buffers are `List Nat` (each element one byte).  The `multer` crate is
an external collaborator: the sequence of parts (with their names,
filenames, content types, chunks and textual values) that it would yield
for a given body and boundary is passed in as an explicit list, and the
per-part consumption loop of `rt_parse_multipart_form_data` is embedded
over that list.
-/

namespace MultipartRs

/-- Reasons for a Rust panic in the embedded code.  `sliceOutOfRange` is an
out-of-bounds / reversed slice index panic, `nameUnwrap` is the panic of
`field.name().unwrap()` on a part with no name (lib.rs line 139), and
`runtimeNotInitialized` is the panic of
`self.runtime.as_ref().expect("Runtime not initialized")` (line 62). -/
inductive PanicReason where
  | sliceOutOfRange
  | nameUnwrap
  | runtimeNotInitialized
deriving DecidableEq

instance {ε α : Type} [DecidableEq ε] [DecidableEq α] : DecidableEq (Except ε α) := fun x y =>
  match x, y with
  | .ok a, .ok b =>
    if h : a = b then .isTrue (by rw [h]) else .isFalse (fun hc => h (Except.ok.inj hc))
  | .error a, .error b =>
    if h : a = b then .isTrue (by rw [h]) else .isFalse (fun hc => h (Except.error.inj hc))
  | .ok _, .error _ => .isFalse (fun hc => Except.noConfusion hc)
  | .error _, .ok _ => .isFalse (fun hc => Except.noConfusion hc)

/-- Mirror of the `FormField` struct (lib.rs lines 33-39): a name and a
textual value, both owned C strings in the source. -/
structure FormField where
  name : String
  value : String
deriving DecidableEq

/-- Mirror of the `MultipartFile` struct (lib.rs lines 22-31): filename,
content type and owning field name (owned C strings in the source), plus a
raw byte buffer with an explicit length. -/
structure MultipartFile where
  filename : String
  content_type : String
  content : List Nat
  content_length : Nat
  field_name : String
deriving DecidableEq

/-- Mirror of the `FormData` struct (lib.rs lines 12-20).  The two array
pointers are nullable, so they are modelled as `Option` of the array
contents; the two stored counts are kept as separate components exactly as
in the C layout. -/
structure FormData where
  fields : Option (List FormField)
  field_count : Nat
  files : Option (List MultipartFile)
  file_count : Nat
deriving DecidableEq

/-- Mirror of `default_form_data` (lib.rs lines 98-103): null `fields` and
`files` pointers with both counts zero. -/
def default_form_data : FormData :=
  { fields := none, field_count := 0, files := none, file_count := 0 }

/-- Abstraction of one `multer` field as observed through the capability
calls the source makes on it: `name()`, `file_name()`, `content_type()`
(already rendered to a string), the chunk sequence `chunk()` would yield,
and the `text()` result (`none` modelling a text-decode failure). -/
structure Part where
  name : Option String
  file_name : Option String
  content_type : Option String
  chunks : List (List Nat)
  text : Option String
deriving DecidableEq

/-- Mirror of the default content type (lib.rs line 134):
`"application/octet-stream".parse::<Mime>().unwrap()`, rendered back to a
string at line 154. -/
def default_content_type : String := "application/octet-stream"

/-- Construction of one `FormField` from a non-file part (lib.rs lines
183-193): the value is `field.text().await.unwrap_or_default()`, so a
decode failure is replaced by the empty string. -/
def fieldOfPart (name : String) (p : Part) : FormField :=
  { name := name, value := p.text.getD "" }

/-- Construction of one `MultipartFile` from a file part (lib.rs lines
142-177): the filename is the declared one, the content type defaults to
`default_content_type` when absent, and the content buffer is the
concatenation of all drained chunks with `content_length = content.len()`. -/
def fileOfPart (name : String) (p : Part) : MultipartFile :=
  let content := p.chunks.flatten
  { filename := p.file_name.getD ""
    content_type := p.content_type.getD default_content_type
    content := content
    content_length := content.length
    field_name := name }

/-- Embedding of the `while let Some(mut field) = multipart.next_field()`
loop (lib.rs lines 138-195).  Each part's name is unwrapped (panic when
absent); a part is classified as a file exactly when `file_name()` is
`Some`; files and fields are pushed to their vectors in encounter order. -/
def processParts : List Part → Except PanicReason (List FormField × List MultipartFile)
  | [] => .ok ([], [])
  | p :: rest =>
    match p.name with
    | none => .error .nameUnwrap
    | some n =>
      match processParts rest with
      | .error e => .error e
      | .ok (fs, ls) =>
        if p.file_name.isSome then .ok (fs, fileOfPart n p :: ls)
        else .ok (fieldOfPart n p :: fs, ls)

/-- Mirror of the final record construction (lib.rs lines 197-212): the two
vectors become boxed slices whose pointers and lengths populate the
returned `FormData`. -/
def buildFormData (fs : List FormField) (ls : List MultipartFile) : FormData :=
  { fields := some fs, field_count := fs.length, files := some ls, file_count := ls.length }

/-- Rust slice indexing `&xs[start..stop]`, which panics when the range is
reversed or past the end of the slice. -/
def sliceRange (xs : List Nat) (start stop : Nat) : Except PanicReason (List Nat) :=
  if start ≤ stop ∧ stop ≤ xs.length then .ok ((xs.drop start).take (stop - start))
  else .error .sliceOutOfRange

/-- Helper for UTF-8 decoding: a continuation byte is in `0x80..0xBF`. -/
def isCont (b : Nat) : Bool := 0x80 ≤ b && b < 0xC0

/-- Model of the byte-level validation and decoding performed by Rust's
`std::str::from_utf8`: strict UTF-8 (RFC 3629), rejecting overlong
encodings, surrogate code points, and values above `0x10FFFF`.  Returns the
decoded characters, or `none` on invalid input. -/
def utf8DecodeChars : List Nat → Option (List Char)
  | [] => some []
  | b0 :: t =>
    if b0 < 0x80 then
      (utf8DecodeChars t).map (fun cs => Char.ofNat b0 :: cs)
    else if b0 < 0xC2 then none
    else if b0 < 0xE0 then
      match t with
      | b1 :: t1 =>
        if isCont b1 then
          (utf8DecodeChars t1).map (fun cs => Char.ofNat ((b0 - 0xC0) * 0x40 + (b1 - 0x80)) :: cs)
        else none
      | [] => none
    else if b0 < 0xF0 then
      match t with
      | b1 :: b2 :: t2 =>
        if (if b0 = 0xE0 then decide (0xA0 ≤ b1) && decide (b1 < 0xC0)
            else if b0 = 0xED then decide (0x80 ≤ b1) && decide (b1 < 0xA0)
            else isCont b1) && isCont b2 then
          (utf8DecodeChars t2).map (fun cs =>
            Char.ofNat ((b0 - 0xE0) * 0x1000 + (b1 - 0x80) * 0x40 + (b2 - 0x80)) :: cs)
        else none
      | _ => none
    else if b0 < 0xF5 then
      match t with
      | b1 :: b2 :: b3 :: t3 =>
        if (if b0 = 0xF0 then decide (0x90 ≤ b1) && decide (b1 < 0xC0)
            else if b0 = 0xF4 then decide (0x80 ≤ b1) && decide (b1 < 0x90)
            else isCont b1) && isCont b2 && isCont b3 then
          (utf8DecodeChars t3).map (fun cs =>
            Char.ofNat ((b0 - 0xF0) * 0x40000 + (b1 - 0x80) * 0x1000 + (b2 - 0x80) * 0x40 + (b3 - 0x80)) :: cs)
        else none
      | _ => none
    else none

/-- Model of `std::str::from_utf8` on a byte list, producing a `String` on
success. -/
def rustFromUtf8 (bs : List Nat) : Option String :=
  (utf8DecodeChars bs).map String.mk

/-- Model of `std::str::from_utf8(..).unwrap_or_default()` (lib.rs line
121): invalid UTF-8 is replaced by the empty string. -/
def rustFromUtf8OrDefault (bs : List Nat) : String :=
  (rustFromUtf8 bs).getD ""

/-- Embedding of the boundary extraction (lib.rs lines 112-121): find the
first `\r` byte; when none exists signal `none`; otherwise slice
`&body[2 .. boundary_index - 2]` (which panics when the `\r` sits at index
0 or 1, since the slice range is then reversed) and decode it with
`unwrap_or_default`. -/
def extract_boundary (body : List Nat) : Except PanicReason (Option String) :=
  match body.findIdx? (fun b => b == 13) with
  | none => .ok none
  | some idx =>
    match sliceRange body 2 ((idx + 2) - 2) with
    | .error e => .error e
    | .ok bts => .ok (some (rustFromUtf8OrDefault bts))

/-- Embedding of `rt_parse_multipart_form_data` (lib.rs lines 97-213).  A
null body yields the boxed default record; otherwise the body is read as a
C string (bytes up to the first NUL), the boundary is extracted, an absent
or empty boundary yields the default record, and otherwise the multer part
stream (the `parts` oracle) is consumed into the final record. -/
def rt_parse_multipart_form_data (body : Option (List Nat)) (parts : List Part) :
    Except PanicReason FormData :=
  match body with
  | none => .ok default_form_data
  | some raw =>
    let body := raw.takeWhile (fun b => b != 0)
    match extract_boundary body with
    | .error e => .error e
    | .ok none => .ok default_form_data
    | .ok (some boundary) =>
      if boundary = "" then .ok default_form_data
      else
        match processParts parts with
        | .error e => .error e
        | .ok (fs, ls) => .ok (buildFormData fs ls)

/-- Identities of the heap allocations that cross the FFI boundary.  A
string or buffer allocation is identified positionally: `fieldName i` is
the C string held by `fields[i].name`, and so on.  `fieldsArray` and
`filesArray` are the boxed-slice backing stores and `record` is the boxed
top-level `FormData`. -/
inductive Alloc where
  | fieldName (i : Nat)
  | fieldValue (i : Nat)
  | fileContent (i : Nat)
  | fileContentType (i : Nat)
  | fileFieldName (i : Nat)
  | fileFilename (i : Nat)
  | fieldsArray
  | filesArray
  | record
deriving DecidableEq

/-- Inventory of the allocations made while building a non-empty parse
result (lib.rs lines 138-212), in source temporal order per element: for
each field, the `name` and `value` C strings (lines 188-189); for each
file, the content buffer (lines 157-159, ownership kept via `mem::forget`)
and the `content_type`, `field_name` and `filename` C strings (lines
166-168); then the two boxed slices (lines 198-199), which are real heap
allocations only when non-empty (an empty boxed slice owns no heap
storage); and finally the boxed record (line 212). -/
def buildAllocs (nFields nFiles : Nat) : List Alloc :=
  ((List.range nFields).flatMap (fun i => [Alloc.fieldName i, Alloc.fieldValue i])) ++
  ((List.range nFiles).flatMap (fun i =>
    [Alloc.fileContent i, Alloc.fileContentType i, Alloc.fileFieldName i, Alloc.fileFilename i])) ++
  (if nFields = 0 then [] else [Alloc.fieldsArray]) ++
  (if nFiles = 0 then [] else [Alloc.filesArray]) ++
  [Alloc.record]

/-- Allocations owned by a `FormData` returned by the parser: the empty
path (lib.rs lines 98-107) allocates only the boxed record; the full path
allocates `buildAllocs` of the two vector lengths. -/
def parseAllocs (d : FormData) : List Alloc :=
  match d.fields, d.files with
  | some fs, some ls => buildAllocs fs.length ls.length
  | _, _ => [Alloc.record]

/-- Embedding of `free_multipart_form_data` (lib.rs lines 226-266),
returning the list of allocations it releases, or `none` when it commits
undefined behaviour (dereferencing a null or too-short array).  A null
record is a no-op.  Otherwise: for each `i < field_count` the two field C
strings are released; the fields backing store is released when the pointer
is non-null (releasing a capacity-0 reconstructed `Vec` frees nothing);
likewise for files, where each element releases its `filename`,
`content_type` and `field_name` C strings and its content buffer; finally
the boxed record itself is released when `data` drops. -/
def free_multipart_form_data (form_data : Option FormData) : Option (List Alloc) :=
  match form_data with
  | none => some []
  | some data =>
    let fieldStrs : Option (List Alloc) :=
      match data.fields with
      | some fs =>
        if data.field_count ≤ fs.length then
          some ((List.range data.field_count).flatMap
            (fun i => [Alloc.fieldName i, Alloc.fieldValue i]))
        else none
      | none => if data.field_count = 0 then some [] else none
    let fileStrs : Option (List Alloc) :=
      match data.files with
      | some ls =>
        if data.file_count ≤ ls.length then
          some ((List.range data.file_count).flatMap
            (fun i => [Alloc.fileFilename i, Alloc.fileContentType i,
                       Alloc.fileFieldName i, Alloc.fileContent i]))
        else none
      | none => if data.file_count = 0 then some [] else none
    match fieldStrs, fileStrs with
    | some a, some b =>
      let fieldsArr : List Alloc :=
        match data.fields with
        | some _ => if data.field_count = 0 then [] else [Alloc.fieldsArray]
        | none => []
      let filesArr : List Alloc :=
        match data.files with
        | some _ => if data.file_count = 0 then [] else [Alloc.filesArray]
        | none => []
      some (a ++ fieldsArr ++ b ++ filesArr ++ [Alloc.record])
    | _, _ => none

/-- Mirror of the `RuntimeManager` struct (lib.rs lines 41-43): it owns an
optional Tokio runtime, abstracted here to `Unit`. -/
structure RuntimeManager where
  runtime : Option Unit
deriving DecidableEq

/-- Mirror of `RuntimeManager::new` (lib.rs lines 46-48). -/
def RuntimeManager.new : RuntimeManager := { runtime := none }

/-- Mirror of `RuntimeManager::init` (lib.rs lines 50-59): builds the
runtime only when none exists yet. -/
def RuntimeManager.init (m : RuntimeManager) : RuntimeManager :=
  match m.runtime with
  | none => { runtime := some () }
  | some r => { runtime := some r }

/-- Mirror of the accessor `RuntimeManager::runtime` (lib.rs lines 61-63):
`self.runtime.as_ref().expect("Runtime not initialized")`, panicking when
the runtime has been shut down.  Named `getRuntime` because the structure
field already carries the source name. -/
def RuntimeManager.getRuntime (m : RuntimeManager) : Except PanicReason Unit :=
  match m.runtime with
  | some r => .ok r
  | none => .error .runtimeNotInitialized

/-- Mirror of `RuntimeManager::shutdown` (lib.rs lines 65-69): `take` the
runtime out and tear it down when present.  The returned `Bool` records
whether a teardown actually ran. -/
def RuntimeManager.shutdown (m : RuntimeManager) : RuntimeManager × Bool :=
  match m.runtime with
  | some _ => ({ runtime := none }, true)
  | none => ({ runtime := none }, false)

/-- Mirror of the `RUNTIME_MANAGER` lazy initializer (lib.rs lines 73-77):
a fresh manager with `init` applied once. -/
def lazyInitManager : RuntimeManager := RuntimeManager.new.init

/-- Mirror of `rt()` (lib.rs lines 88-90): forces the lazy singleton.  The
process-wide cell is modelled as `Option RuntimeManager`, `none` meaning
the `Lazy` was never forced; forcing it runs `lazyInitManager` exactly
once, and a forced cell is returned unchanged (the initializer never runs
again). -/
def rt (g : Option RuntimeManager) : RuntimeManager :=
  match g with
  | none => lazyInitManager
  | some m => m

/-- Embedding of the exported `parse_multipart_form_data` (lib.rs lines
215-222): force the singleton, fetch the runtime (panicking when it was
shut down), then run `rt_parse_multipart_form_data` to completion.  Returns
the new state of the process-wide cell together with the call's outcome. -/
def parse_multipart_form_data (g : Option RuntimeManager) (body : Option (List Nat))
    (parts : List Part) : Option RuntimeManager × Except PanicReason FormData :=
  let m := rt g
  match m.getRuntime with
  | .error e => (some m, .error e)
  | .ok _ => (some m, rt_parse_multipart_form_data body parts)

/-- Embedding of the exported `shutdown_runtime` (lib.rs lines 269-272):
force the singleton and shut its runtime down.  Returns the new state of
the process-wide cell and whether a teardown ran. -/
def shutdown_runtime (g : Option RuntimeManager) : Option RuntimeManager × Bool :=
  let p := (rt g).shutdown
  (some p.fst, p.snd)

/-! Helper lemmas shared by the claim theorems. -/

theorem findIdx?_append_first (p : Nat → Bool) (pre : List Nat) (x : Nat) (post : List Nat)
    (hx : p x = true) (h : ∀ b ∈ pre, p b = false) :
    ∀ i, List.findIdx? p (pre ++ x :: post) i = some (i + pre.length) := by
  induction pre with
  | nil => intro i; simp [List.findIdx?_cons, hx]
  | cons a t ih =>
    intro i
    have ha := h a (List.mem_cons_self a t)
    have ht := ih (fun b hb => h b (List.mem_cons_of_mem a hb))
    rw [List.cons_append, List.findIdx?_cons, if_neg (by simp [ha]), ht (i + 1)]
    congr 1
    simp only [List.length_cons]
    omega

theorem findIdx?_eq_none_of_all (p : Nat → Bool) (l : List Nat)
    (h : ∀ b ∈ l, p b = false) : ∀ i, List.findIdx? p l i = none := by
  induction l with
  | nil => intro i; rfl
  | cons a t ih =>
    intro i
    have ha := h a (List.mem_cons_self a t)
    have ht := ih (fun b hb => h b (List.mem_cons_of_mem a hb))
    simp [List.findIdx?_cons, ha, ht]

theorem sliceRange_of_split (pre post : List Nat) (x : Nat) (h2 : 2 ≤ pre.length) :
    sliceRange (pre ++ x :: post) 2 pre.length = .ok (pre.drop 2) := by
  unfold sliceRange
  rw [if_pos]
  · congr 1
    rw [List.drop_append_of_le_length h2]
    exact List.take_left' (by simp)
  · constructor
    · exact h2
    · simp

theorem processParts_ok_of_names (parts : List Part) (h : ∀ p ∈ parts, p.name.isSome) :
    processParts parts =
      .ok ((parts.filter (fun p => p.file_name.isNone)).map (fun p => fieldOfPart (p.name.getD "") p),
           (parts.filter (fun p => p.file_name.isSome)).map (fun p => fileOfPart (p.name.getD "") p)) := by
  induction parts with
  | nil => rfl
  | cons p rest ih =>
    obtain ⟨n, hn⟩ := Option.isSome_iff_exists.mp (h p (List.mem_cons_self p rest))
    have hrest := ih (fun q hq => h q (List.mem_cons_of_mem p hq))
    cases hpf : p.file_name with
    | none =>
      simp [processParts, hn, hrest, List.filter_cons, hpf]
    | some v =>
      simp [processParts, hn, hrest, List.filter_cons, hpf]

theorem processParts_error_of_noname (parts : List Part) (h : ∃ p ∈ parts, p.name = none) :
    processParts parts = .error .nameUnwrap := by
  induction parts with
  | nil => simp at h
  | cons p rest ih =>
    obtain ⟨q, hq, hqn⟩ := h
    rcases List.mem_cons.mp hq with hq1 | hq2
    · subst hq1
      simp [processParts, hqn]
    · cases hpn : p.name with
      | none => simp [processParts, hpn]
      | some n =>
        have hr := ih ⟨q, hq2, hqn⟩
        simp [processParts, hpn, hr]

theorem processParts_names_of_ok (parts : List Part) (fs : List FormField)
    (ls : List MultipartFile) (h : processParts parts = .ok (fs, ls)) :
    ∀ p ∈ parts, p.name.isSome := by
  intro p hp
  by_contra hnone
  have hn : p.name = none := Option.not_isSome_iff_eq_none.mp hnone
  rw [processParts_error_of_noname parts ⟨p, hp, hn⟩] at h
  exact Except.noConfusion h

theorem filter_file_split (parts : List Part) :
    (parts.filter (fun p => p.file_name.isNone)).length +
      (parts.filter (fun p => p.file_name.isSome)).length = parts.length := by
  induction parts with
  | nil => rfl
  | cons p t ih =>
    cases hp : p.file_name <;> simp [List.filter_cons, hp] <;> omega

theorem rt_parse_some_eq (raw : List Nat) (parts : List Part) :
    rt_parse_multipart_form_data (some raw) parts =
      (match extract_boundary (raw.takeWhile (fun b => b != 0)) with
       | .error e => .error e
       | .ok none => .ok default_form_data
       | .ok (some boundary) =>
         if boundary = "" then .ok default_form_data
         else
           match processParts parts with
           | .error e => .error e
           | .ok (fs, ls) => .ok (buildFormData fs ls)) := rfl

theorem rt_parse_ok_shape (body : Option (List Nat)) (parts : List Part) (d : FormData)
    (h : rt_parse_multipart_form_data body parts = .ok d) :
    d = default_form_data ∨
      ∃ fs ls, processParts parts = .ok (fs, ls) ∧ d = buildFormData fs ls := by
  cases body with
  | none => left; exact (Except.ok.inj h).symm
  | some raw =>
    rw [rt_parse_some_eq] at h
    split at h
    · exact Except.noConfusion h
    · left; exact (Except.ok.inj h).symm
    · split at h
      · left; exact (Except.ok.inj h).symm
      · split at h
        · exact Except.noConfusion h
        · rename_i fs ls hP
          exact Or.inr ⟨fs, ls, hP, (Except.ok.inj h).symm⟩

theorem flatMap_perm_of_perm {α β : Type} (l : List α) (f g : α → List β)
    (h : ∀ a ∈ l, (f a).Perm (g a)) : (l.flatMap f).Perm (l.flatMap g) := by
  induction l with
  | nil => simp
  | cons a t ih =>
    simp only [List.flatMap_cons]
    exact (h a (List.mem_cons_self a t)).append
      (ih (fun b hb => h b (List.mem_cons_of_mem a hb)))

theorem perm_four_swap {α : Type} (a b c d : α) : ([a, b, c, d] : List α).Perm [d, b, c, a] := by
  have h1 : ([a] ++ [b, c, d] : List α).Perm ([b, c, d] ++ [a]) := List.perm_append_comm
  have h2 : ([b, c] ++ [d] : List α).Perm ([d] ++ [b, c]) := List.perm_append_comm
  have h3 : (([b, c] ++ [d]) ++ [a] : List α).Perm (([d] ++ [b, c]) ++ [a]) := h2.append_right [a]
  have h1a : ([a, b, c, d] : List α).Perm [b, c, d, a] := by simpa using h1
  have h3a : ([b, c, d, a] : List α).Perm [d, b, c, a] := by simpa using h3
  exact h1a.trans h3a

theorem extract_boundary_no_cr (body : List Nat) (h : ∀ b ∈ body, b ≠ 13) :
    extract_boundary body = .ok none := by
  unfold extract_boundary
  rw [findIdx?_eq_none_of_all (fun b => b == 13) body (fun b hb => by simp [h b hb]) 0]

theorem extract_boundary_of_split (pre post : List Nat)
    (hfirst : ∀ b ∈ pre, b ≠ 13) (h2 : 2 ≤ pre.length) :
    extract_boundary (pre ++ 13 :: post) =
      .ok (some (rustFromUtf8OrDefault (pre.drop 2))) := by
  unfold extract_boundary
  rw [findIdx?_append_first (fun b => b == 13) pre 13 post (by simp)
    (fun b hb => by simp [hfirst b hb]) 0]
  have hidx : 0 + pre.length + 2 - 2 = pre.length := by omega
  simp only [hidx]
  rw [sliceRange_of_split pre post 13 h2]

theorem extract_boundary_of_split_early (pre post : List Nat)
    (hfirst : ∀ b ∈ pre, b ≠ 13) (h2 : pre.length < 2) :
    extract_boundary (pre ++ 13 :: post) = .error .sliceOutOfRange := by
  unfold extract_boundary
  rw [findIdx?_append_first (fun b => b == 13) pre 13 post (by simp)
    (fun b hb => by simp [hfirst b hb]) 0]
  have hidx : 0 + pre.length + 2 - 2 = pre.length := by omega
  simp only [hidx]
  have hslice : sliceRange (pre ++ 13 :: post) 2 pre.length = .error .sliceOutOfRange := by
    unfold sliceRange
    rw [if_neg]
    intro hc
    omega
  rw [hslice]

/-! Claim theorems. -/

/-- C1: the claim says that for every input — a null pointer, a body with no
line terminator, a body whose extracted boundary token is empty, or
otherwise malformed framing — `parse_multipart_form_data` does not fail
catastrophically and returns an empty `FormData`.  The enumerated cases do
behave that way (conjuncts 2-4: null body, a body with no CR byte, and a
body with an empty token), but the claim fails on other malformed framing:
at the concrete body consisting of the single byte `0x0D` (a CR at index 0)
the code evaluates the reversed slice `&body[2..0]` and panics instead of
returning an empty `FormData` — a slip contradicting the function's own
documentation that malformed input yields an empty record. -/
theorem c1_parse_panics_on_early_cr :
    rt_parse_multipart_form_data (some [13]) [] = .error .sliceOutOfRange ∧
    rt_parse_multipart_form_data none [] = .ok default_form_data ∧
    rt_parse_multipart_form_data (some [45, 45, 66, 67]) [] = .ok default_form_data ∧
    rt_parse_multipart_form_data (some [45, 45, 13, 10]) [] = .ok default_form_data := by
  exact ⟨by decide, rfl, by decide, by decide⟩

/-- C2 counterexample: the claim says every non-null body with an empty
extracted boundary token takes the empty-result path; at the concrete body
`[0x0D]` (first CR at index 0, so the token between the two-character
prefix and the terminator is empty) the parse instead panics on a reversed
slice. -/
theorem c2_counterexample_early_cr :
    rt_parse_multipart_form_data (some [13]) [] ≠ .ok default_form_data ∧
    rt_parse_multipart_form_data (some [13]) [] = .error .sliceOutOfRange := by
  exact ⟨by decide, by decide⟩

/-- C2 (amended): for every non-null body, read as a C string (bytes up to
the first NUL): if it contains no CR byte the parse returns the empty
`FormData`; if its first CR byte sits at index `≥ 2` then the boundary
token extracted is exactly the bytes strictly between the leading
two-character prefix and that first CR (both excluded), decoded as UTF-8
with the empty token substituted on a decoding failure, and an invalid or
empty token makes the parse return the empty `FormData`; but if the first
CR sits at index 0 or 1 the parse panics on a reversed slice instead of
taking the empty-result path. -/
theorem c2_boundary_token_amended (raw : List Nat) (parts : List Part) :
    ((∀ b ∈ raw.takeWhile (fun b => b != 0), b ≠ 13) →
      rt_parse_multipart_form_data (some raw) parts = .ok default_form_data) ∧
    (∀ pre post, raw.takeWhile (fun b => b != 0) = pre ++ 13 :: post →
      (∀ b ∈ pre, b ≠ 13) →
      ((pre.length < 2 →
         rt_parse_multipart_form_data (some raw) parts = .error .sliceOutOfRange) ∧
       (2 ≤ pre.length →
         extract_boundary (raw.takeWhile (fun b => b != 0)) =
           .ok (some (rustFromUtf8OrDefault (pre.drop 2))) ∧
         (rustFromUtf8 (pre.drop 2) = none →
           rt_parse_multipart_form_data (some raw) parts = .ok default_form_data) ∧
         (rustFromUtf8OrDefault (pre.drop 2) = "" →
           rt_parse_multipart_form_data (some raw) parts = .ok default_form_data)))) := by
  constructor
  · intro hnocr
    rw [rt_parse_some_eq, extract_boundary_no_cr _ hnocr]
  · intro pre post hsplit hfirst
    constructor
    · intro hlt
      rw [rt_parse_some_eq, hsplit, extract_boundary_of_split_early pre post hfirst hlt]
    · intro hge
      have hE := extract_boundary_of_split pre post hfirst hge
      refine ⟨by rw [hsplit]; exact hE, ?_, ?_⟩
      · intro hbad
        have htok : rustFromUtf8OrDefault (pre.drop 2) = "" := by
          unfold rustFromUtf8OrDefault
          rw [hbad]
          rfl
        rw [rt_parse_some_eq, hsplit, hE, htok]
        simp
      · intro htok
        rw [rt_parse_some_eq, hsplit, hE, htok]
        simp

/-- C2 witness: the amended theorem applied at the concrete body
`"--B\r\n"` with the split `[45,45,66] ++ 13 :: [10]`, and at the body
`[0x0D]` with the split `[] ++ 13 :: []`. -/
theorem c2_boundary_token_amended_witness :
    extract_boundary ([45, 45, 66, 13, 10].takeWhile (fun b => b != 0)) =
      .ok (some (rustFromUtf8OrDefault ([45, 45, 66].drop 2))) ∧
    rt_parse_multipart_form_data (some [13]) [] = .error .sliceOutOfRange := by
  constructor
  · exact (((c2_boundary_token_amended [45, 45, 66, 13, 10] []).2 [45, 45, 66] [10]
      (by decide) (by decide)).2 (by decide)).1
  · exact ((c2_boundary_token_amended [13] []).2 [] [] (by decide) (by decide)).1 (by decide)

/-- C3: for every non-null handle returned by the parser, one call to
`free_multipart_form_data` releases exactly the multiset of allocations
made when the record was built — each field's name and value strings, each
file's filename, content-type and field-name strings and its content
buffer, the non-empty backing arrays, and the top-level record — and a
null record is a no-op that releases nothing; neither path commits
undefined behaviour (the result is never `none`). -/
theorem c3_free_reclaims_exactly_build_allocations (body : Option (List Nat))
    (parts : List Part) (d : FormData)
    (h : rt_parse_multipart_form_data body parts = .ok d) :
    free_multipart_form_data none = some [] ∧
    ∃ freed, free_multipart_form_data (some d) = some freed ∧ freed.Perm (parseAllocs d) := by
  refine ⟨rfl, ?_⟩
  rcases rt_parse_ok_shape body parts d h with hd | ⟨fs, ls, hP, hd⟩
  · subst hd
    exact ⟨[Alloc.record], rfl, by decide⟩
  · subst hd
    have hfree : free_multipart_form_data (some (buildFormData fs ls)) =
        some (((List.range fs.length).flatMap
            (fun i => [Alloc.fieldName i, Alloc.fieldValue i])) ++
          (if fs.length = 0 then [] else [Alloc.fieldsArray]) ++
          ((List.range ls.length).flatMap
            (fun i => [Alloc.fileFilename i, Alloc.fileContentType i,
                       Alloc.fileFieldName i, Alloc.fileContent i])) ++
          (if ls.length = 0 then [] else [Alloc.filesArray]) ++ [Alloc.record]) := by
      simp [free_multipart_form_data, buildFormData]
    refine ⟨_, hfree, ?_⟩
    have hpa : parseAllocs (buildFormData fs ls) = buildAllocs fs.length ls.length := rfl
    rw [hpa]
    unfold buildAllocs
    have hBB : ((List.range ls.length).flatMap
        (fun i => [Alloc.fileFilename i, Alloc.fileContentType i,
                   Alloc.fileFieldName i, Alloc.fileContent i])).Perm
        ((List.range ls.length).flatMap
        (fun i => [Alloc.fileContent i, Alloc.fileContentType i,
                   Alloc.fileFieldName i, Alloc.fileFilename i])) :=
      flatMap_perm_of_perm _ _ _ (fun i _ => perm_four_swap _ _ _ _)
    have hFB : ((if fs.length = 0 then ([] : List Alloc) else [Alloc.fieldsArray]) ++
        ((List.range ls.length).flatMap
          (fun i => [Alloc.fileFilename i, Alloc.fileContentType i,
                     Alloc.fileFieldName i, Alloc.fileContent i]))).Perm
        (((List.range ls.length).flatMap
          (fun i => [Alloc.fileContent i, Alloc.fileContentType i,
                     Alloc.fileFieldName i, Alloc.fileFilename i])) ++
         (if fs.length = 0 then ([] : List Alloc) else [Alloc.fieldsArray])) :=
      (List.perm_append_comm).trans (hBB.append_right _)
    have main := (hFB.append_right
      ((if ls.length = 0 then ([] : List Alloc) else [Alloc.filesArray]) ++
        [Alloc.record])).append_left
      ((List.range fs.length).flatMap (fun i => [Alloc.fieldName i, Alloc.fieldValue i]))
    simpa [List.append_assoc] using main

/-- C3 witness: the theorem applied at the null body, whose parse result is
the empty record; freeing it releases exactly the boxed record. -/
theorem c3_free_reclaims_exactly_build_allocations_witness :
    free_multipart_form_data none = some [] ∧
    ∃ freed, free_multipart_form_data (some default_form_data) = some freed ∧
      freed.Perm (parseAllocs default_form_data) :=
  c3_free_reclaims_exactly_build_allocations none [] default_form_data rfl

/-- C4: for every parse that returns a `FormData` with non-null arrays, the
stored counts equal the array lengths, the number of field entries plus
file entries equals the number of parts consumed from the stream, a part
lands in the files array exactly when it declares a filename (otherwise in
the fields array), and each array lists its entries in the order the parts
were encountered. -/
theorem c4_part_classification_and_order (body : Option (List Nat)) (parts : List Part)
    (d : FormData) (fs : List FormField) (ls : List MultipartFile)
    (h : rt_parse_multipart_form_data body parts = .ok d)
    (hfs : d.fields = some fs) (hls : d.files = some ls) :
    d.field_count = fs.length ∧ d.file_count = ls.length ∧
    fs.length + ls.length = parts.length ∧
    fs = (parts.filter (fun p => p.file_name.isNone)).map
      (fun p => fieldOfPart (p.name.getD "") p) ∧
    ls = (parts.filter (fun p => p.file_name.isSome)).map
      (fun p => fileOfPart (p.name.getD "") p) := by
  rcases rt_parse_ok_shape body parts d h with hd | ⟨fs1, ls1, hP, hd⟩
  · rw [hd] at hfs
    exact absurd hfs (by simp [default_form_data])
  · subst hd
    have hfs1 : fs1 = fs := Option.some.inj hfs
    have hls1 : ls1 = ls := Option.some.inj hls
    subst hfs1
    subst hls1
    have hnames := processParts_names_of_ok parts fs1 ls1 hP
    have hchar := processParts_ok_of_names parts hnames
    rw [hP] at hchar
    obtain ⟨hfse, hlse⟩ := Prod.mk.inj (Except.ok.inj hchar)
    refine ⟨rfl, rfl, ?_, hfse, hlse⟩
    rw [hfse, hlse]
    simp only [List.length_map]
    exact filter_file_split parts

/-- C4 witness: a concrete two-part body — a value field named `a` and a
file named `f` — parses to one field entry and one file entry. -/
theorem c4_part_classification_and_order_witness :
    rt_parse_multipart_form_data (some [45, 45, 66, 13, 10])
        [{ name := some "a", file_name := none, content_type := none,
           chunks := [], text := some "hello" },
         { name := some "f", file_name := some "x.txt", content_type := none,
           chunks := [[97, 98]], text := none }] =
      .ok (buildFormData [{ name := "a", value := "hello" }]
        [{ filename := "x.txt", content_type := "application/octet-stream",
           content := [97, 98], content_length := 2, field_name := "f" }]) ∧
    (1 : Nat) + 1 = 2 ∧
    (buildFormData [{ name := "a", value := "hello" }]
      [{ filename := "x.txt", content_type := "application/octet-stream",
         content := [97, 98], content_length := 2, field_name := "f" }]).field_count = 1 := by
  refine ⟨by decide, ?_, by decide⟩
  have := c4_part_classification_and_order (some [45, 45, 66, 13, 10])
    [{ name := some "a", file_name := none, content_type := none,
       chunks := [], text := some "hello" },
     { name := some "f", file_name := some "x.txt", content_type := none,
       chunks := [[97, 98]], text := none }]
    (buildFormData [{ name := "a", value := "hello" }]
      [{ filename := "x.txt", content_type := "application/octet-stream",
         content := [97, 98], content_length := 2, field_name := "f" }])
    [{ name := "a", value := "hello" }]
    [{ filename := "x.txt", content_type := "application/octet-stream",
       content := [97, 98], content_length := 2, field_name := "f" }]
    (by decide) rfl rfl
  exact this.2.2.1

/-- C5: every file entry in a parse result stems from a file part of the
stream, its content buffer is exactly the concatenation of all chunks
drained for that part (arbitrary bytes, null bytes included — the buffer
carries an explicit length and is never truncated at a null), and its
recorded `content_length` equals the sum of the lengths of those chunks and
the length of the stored buffer. -/
theorem c5_file_content_verbatim (parts : List Part) (fs : List FormField)
    (ls : List MultipartFile) (h : processParts parts = .ok (fs, ls)) :
    ∀ f ∈ ls, ∃ p ∈ parts, p.file_name.isSome ∧
      f.content = p.chunks.flatten ∧
      f.content_length = (p.chunks.map List.length).sum ∧
      f.content_length = f.content.length := by
  intro f hf
  have hnames := processParts_names_of_ok parts fs ls h
  have hchar := processParts_ok_of_names parts hnames
  rw [h] at hchar
  obtain ⟨hfse, hlse⟩ := Prod.mk.inj (Except.ok.inj hchar)
  rw [hlse] at hf
  obtain ⟨p, hpmem, hpf⟩ := List.mem_map.mp hf
  obtain ⟨hpin, hpsome⟩ := List.mem_filter.mp hpmem
  refine ⟨p, hpin, hpsome, ?_, ?_, ?_⟩
  · rw [← hpf]
    simp [fileOfPart]
  · rw [← hpf]
    simp [fileOfPart, List.length_flatten]
  · rw [← hpf]
    simp [fileOfPart]

/-- C5 witness: a file part drained in two chunks, `[0x61, 0x00]` and
`[0x62]`, one of them containing an embedded null byte, yields a content
buffer of the three bytes verbatim with recorded length 3. -/
theorem c5_file_content_verbatim_witness :
    processParts
        [{ name := some "f", file_name := some "x", content_type := none,
           chunks := [[97, 0], [98]], text := none }] =
      .ok ([], [{ filename := "x", content_type := "application/octet-stream",
                  content := [97, 0, 98], content_length := 3, field_name := "f" }]) ∧
    ∃ p ∈ [({ name := some "f", file_name := some "x", content_type := none,
              chunks := [[97, 0], [98]], text := none } : Part)], p.file_name.isSome ∧
      ({ filename := "x", content_type := "application/octet-stream",
         content := [97, 0, 98], content_length := 3,
         field_name := "f" } : MultipartFile).content = p.chunks.flatten ∧
      ({ filename := "x", content_type := "application/octet-stream",
         content := [97, 0, 98], content_length := 3,
         field_name := "f" } : MultipartFile).content_length =
        (p.chunks.map List.length).sum ∧
      ({ filename := "x", content_type := "application/octet-stream",
         content := [97, 0, 98], content_length := 3,
         field_name := "f" } : MultipartFile).content_length =
        ({ filename := "x", content_type := "application/octet-stream",
           content := [97, 0, 98], content_length := 3,
           field_name := "f" } : MultipartFile).content.length := by
  refine ⟨by decide, ?_⟩
  exact c5_file_content_verbatim
    [{ name := some "f", file_name := some "x", content_type := none,
       chunks := [[97, 0], [98]], text := none }]
    [] [{ filename := "x", content_type := "application/octet-stream",
          content := [97, 0, 98], content_length := 3, field_name := "f" }]
    (by decide) _ (by simp)

/-- C6: a multipart stream containing a part that declares no name makes
the whole parse fail (the panic of `field.name().unwrap()`), never an `ok`
result — no part is silently skipped and no partial `FormData` is
returned. -/
theorem c6_nameless_part_fails_parse (parts : List Part)
    (h : ∃ p ∈ parts, p.name = none) :
    processParts parts = .error .nameUnwrap ∧
    ∀ fs ls, processParts parts ≠ .ok (fs, ls) := by
  have he := processParts_error_of_noname parts h
  refine ⟨he, fun fs ls hc => ?_⟩
  rw [he] at hc
  exact Except.noConfusion hc

/-- C6 witness: a single nameless part makes the parse fail even though
the part also carries drainable content. -/
theorem c6_nameless_part_fails_parse_witness :
    processParts
        [{ name := none, file_name := some "x", content_type := none,
           chunks := [[1]], text := none }] = .error .nameUnwrap :=
  (c6_nameless_part_fails_parse
    [{ name := none, file_name := some "x", content_type := none,
       chunks := [[1]], text := none }]
    ⟨{ name := none, file_name := some "x", content_type := none,
       chunks := [[1]], text := none }, List.mem_singleton.mpr rfl, rfl⟩).1

/-- C7: every file part that declares no content type produces a
`MultipartFile` whose `content_type` is the default
`"application/octet-stream"`, and every file part with a declared content
type has that type preserved verbatim in the result. -/
theorem c7_content_type_default_or_verbatim (parts : List Part) (fs : List FormField)
    (ls : List MultipartFile) (h : processParts parts = .ok (fs, ls)) :
    ∀ p ∈ parts, p.file_name.isSome →
      ∃ f ∈ ls, f = fileOfPart (p.name.getD "") p ∧
        (p.content_type = none → f.content_type = "application/octet-stream") ∧
        (∀ ct, p.content_type = some ct → f.content_type = ct) := by
  intro p hp hpf
  have hnames := processParts_names_of_ok parts fs ls h
  have hchar := processParts_ok_of_names parts hnames
  rw [h] at hchar
  obtain ⟨hfse, hlse⟩ := Prod.mk.inj (Except.ok.inj hchar)
  refine ⟨fileOfPart (p.name.getD "") p, ?_, rfl, ?_, ?_⟩
  · rw [hlse]
    exact List.mem_map_of_mem _ (List.mem_filter.mpr ⟨hp, hpf⟩)
  · intro hct
    simp [fileOfPart, hct, default_content_type]
  · intro ct hct
    simp [fileOfPart, hct]

/-- C7 witness: of two file parts in one stream, the one without a content
type gets `"application/octet-stream"` and the one declaring `"text/plain"`
keeps it verbatim. -/
theorem c7_content_type_default_or_verbatim_witness :
    (∃ f ∈ [({ filename := "a", content_type := "application/octet-stream",
               content := [], content_length := 0, field_name := "p" } : MultipartFile),
            ({ filename := "b", content_type := "text/plain",
               content := [], content_length := 0, field_name := "q" } : MultipartFile)],
      f = fileOfPart "p" { name := some "p", file_name := some "a", content_type := none,
                           chunks := [], text := none } ∧
        (({ name := some "p", file_name := some "a", content_type := none,
            chunks := [], text := none } : Part).content_type = none →
          f.content_type = "application/octet-stream") ∧
        (∀ ct, ({ name := some "p", file_name := some "a", content_type := none,
                  chunks := [], text := none } : Part).content_type = some ct →
          f.content_type = ct)) := by
  have happ := c7_content_type_default_or_verbatim
    [{ name := some "p", file_name := some "a", content_type := none,
       chunks := [], text := none },
     { name := some "q", file_name := some "b", content_type := some "text/plain",
       chunks := [], text := none }]
    []
    [{ filename := "a", content_type := "application/octet-stream",
       content := [], content_length := 0, field_name := "p" },
     { filename := "b", content_type := "text/plain",
       content := [], content_length := 0, field_name := "q" }]
    (by decide)
    { name := some "p", file_name := some "a", content_type := none,
      chunks := [], text := none }
    (by simp) (by decide)
  exact happ

/-- C8: for a stream in which every part has a name, the parse succeeds,
and every non-file part contributes a field entry whose value is the
decoded text — in particular a text-decode failure is replaced by the
empty string and never aborts the parse. -/
theorem c8_text_decode_failure_empty_value (parts : List Part)
    (h : ∀ p ∈ parts, p.name.isSome) :
    ∃ fs ls, processParts parts = .ok (fs, ls) ∧
      ∀ p ∈ parts, p.file_name = none →
        fieldOfPart (p.name.getD "") p ∈ fs ∧
        (p.text = none → (fieldOfPart (p.name.getD "") p).value = "") := by
  refine ⟨_, _, processParts_ok_of_names parts h, ?_⟩
  intro p hp hpn
  constructor
  · exact List.mem_map_of_mem _ (List.mem_filter.mpr ⟨hp, by simp [hpn]⟩)
  · intro ht
    simp [fieldOfPart, ht]

/-- C8 witness: a single non-file part whose text failed to decode still
parses, producing a field whose value is the empty string. -/
theorem c8_text_decode_failure_empty_value_witness :
    processParts
        [{ name := some "a", file_name := none, content_type := none,
           chunks := [], text := none }] = .ok ([{ name := "a", value := "" }], []) ∧
    ∃ fs ls, processParts
        [{ name := some "a", file_name := none, content_type := none,
           chunks := [], text := none }] = .ok (fs, ls) ∧
      ∀ p ∈ [({ name := some "a", file_name := none, content_type := none,
                chunks := [], text := none } : Part)], p.file_name = none →
        fieldOfPart (p.name.getD "") p ∈ fs ∧
        (p.text = none → (fieldOfPart (p.name.getD "") p).value = "") := by
  refine ⟨by decide, ?_⟩
  exact c8_text_decode_failure_empty_value
    [{ name := some "a", file_name := none, content_type := none,
       chunks := [], text := none }]
    (by decide)

/-- C9: `shutdown_runtime` is safe and idempotent: from any prior state of
the process-wide cell — never forced, forced with a live runtime, or
already shut down — one call leaves the cell holding a manager with no
runtime, and every subsequent call is a no-op (it performs no teardown and
leaves the state unchanged). -/
theorem c9_shutdown_idempotent (g : Option RuntimeManager) :
    (shutdown_runtime g).fst = some { runtime := none } ∧
    shutdown_runtime ((shutdown_runtime g).fst) = (some { runtime := none }, false) := by
  cases g with
  | none => exact ⟨rfl, rfl⟩
  | some m =>
    obtain ⟨r⟩ := m
    cases r with
    | none => exact ⟨rfl, rfl⟩
    | some u => exact ⟨rfl, rfl⟩

/-- C10: after `shutdown_runtime`, every subsequent
`parse_multipart_form_data` call fails with the "Runtime not initialized"
panic and leaves the cell unchanged (so all later calls fail the same
way); the runtime is built only inside the lazy initializer — forcing an
already-forced cell returns the stored manager unchanged, and the
initializer is `RuntimeManager::new` followed by one `init`. -/
theorem c10_parse_after_shutdown_fails (g : Option RuntimeManager)
    (body : Option (List Nat)) (parts : List Part) :
    parse_multipart_form_data ((shutdown_runtime g).fst) body parts =
      (some { runtime := none }, .error .runtimeNotInitialized) ∧
    (∀ m : RuntimeManager, rt (some m) = m) ∧
    rt none = RuntimeManager.new.init := by
  refine ⟨?_, fun m => rfl, rfl⟩
  cases g with
  | none => rfl
  | some m =>
    obtain ⟨r⟩ := m
    cases r with
    | none => rfl
    | some u => rfl

end MultipartRs
